import Mathlib

/-!
Verification of the command routing and execution dispatch layer of the
go-ipfs command-line front end (file `lib/command.go`).

The embedding is shallow: each Go function of the routing core is
translated to a Lean function.  External collaborators that live outside
the file (the capability map `cmdDetailsMap`, `ma.NewMultiaddr`,
`fsrepo.APIAddr`, the DNS resolver, `manet.DialArgs`,
`fsrepo.IsInitialized`) are parameters of the embedding, so theorems
quantify over their behaviour.  Go errors are plain strings, matching the
`error` values built with `errors.New` / `fmt.Errorf` in the source.
-/

set_option autoImplicit false

namespace IpfsLib


/-- Capability flags of a command, mirroring the Go struct `cmdDetails`
with its three independent booleans. -/
structure cmdDetails where
  cannotRunOnClient : Bool := false
  cannotRunOnDaemon : Bool := false
  doesNotUseRepo : Bool := false
  deriving DecidableEq, Repr

/-- The zero value of the Go struct `cmdDetails`: all flags false. -/
def zeroDetails : cmdDetails := {}

/-- Embeds `commandDetails` from `lib/command.go`: the empty path is the
root command and yields `{doesNotUseRepo: true}`; otherwise the loop
walks every prefix of the path (segments joined by "/"), looks it up in
the capability map, and keeps the flags of the last prefix found.  The
map `m` stands for the collaborator `cmdDetailsMap`. -/
def commandDetails (m : String → Option cmdDetails) (path : List String) : cmdDetails :=
  if path.length = 0 then
    { doesNotUseRepo := true }
  else
    (List.range path.length).foldl
      (fun details i =>
        match m (String.intercalate "/" (path.take (i + 1))) with
        | some d => d
        | none => details)
      zeroDetails

/-- A concrete capability map used by witnesses: `swarm` and
`swarm/peers` are registered, everything else is not. -/
def sampleMap : String → Option cmdDetails := fun s =>
  if s = "swarm" then some { cannotRunOnClient := true }
  else if s = "swarm/peers" then some { doesNotUseRepo := true }
  else none

/-- A multiaddr is kept abstract as its string rendering; the embedding
never inspects its structure, only passes it between collaborators. -/
abbrev Multiaddr := String

/-- Renders a Go string slice the way `fmt`'s %v verb does, as used in
the error messages of `makeExecutor`. -/
def goFmtStrSlice (xs : List String) : String :=
  "[" ++ String.intercalate " " xs ++ "]"

/-- The result of the collaborator call `fsrepo.APIAddr(configRoot)`:
an address with a nil error, a nil address with `repo.ErrApiNotRunning`,
or a nil address with some other I/O error. -/
inductive APIAddrResult where
  | found (a : Multiaddr)
  | errApiNotRunning
  | err (e : String)
  deriving DecidableEq, Repr

/-- The parts of a `cmds.Request` that `makeExecutor` reads: the command
path, the raw value of the API option when present, whether the request
is for the daemon-start command (`req.Command == daemonCmd`), and
whether the command is external (`req.Command.External`). -/
structure Request where
  path : List String
  apiOpt : Option String
  isDaemonCmd : Bool
  ext : Bool
  deriving DecidableEq, Repr

/-- The collaborators `makeExecutor` consults, abstracted as data: the
multiaddr constructor `ma.NewMultiaddr`, the discovery read
`fsrepo.APIAddr`, the DNS resolver `dnsResolver.Resolve`, the address
splitter `manet.DialArgs` and the repo check `fsrepo.IsInitialized`. -/
structure Collab where
  newMultiaddr : String → Except String Multiaddr
  apiAddrFile : APIAddrResult
  resolve : Multiaddr → Except String (List Multiaddr)
  dialArgs : Multiaddr → Except String (String × String)
  isInitialized : Bool

/-- Client options accumulated by `makeExecutor` before calling
`cmdhttp.NewClient`: the fixed API path option, the local fallback
option wrapping the local executor, and the HTTP client option whose
dial function targets a unix socket path captured at build time. -/
inductive ClientOpt where
  | withAPIPath
  | withFallback
  | withHTTPClientUnix (socketPath : String)
  deriving DecidableEq, Repr

/-- The dispatch outcome: the local executor `exe` built by
`cmds.NewExecutor`, or the remote client `cmdhttp.NewClient(host, opts)`. -/
inductive Executor where
  | localExec
  | remote (host : String) (opts : List ClientOpt)
  deriving DecidableEq, Repr

/-- A network connection produced by a dial function; records the
network kind and the address actually dialed. -/
inductive Conn where
  | dialed (network : String) (address : String)
  deriving DecidableEq, Repr

/-- Embeds the `DialContext` closure installed for unix-socket API
addresses: it receives the host and port chosen by the HTTP layer and
ignores both, always dialing the captured socket path. -/
def unixDialContext (socketPath : String) : String → String → Conn :=
  fun _host _port => Conn.dialed "unix" socketPath

/-- Embeds `apiAddrOption` from `lib/command.go`: absent option means no
address and no error; a present option is handed to `ma.NewMultiaddr`,
whose result (address or parse error) is returned unchanged. -/
def apiAddrOption (newMultiaddr : String → Except String Multiaddr)
    (apiOpt : Option String) : Except String (Option Multiaddr) :=
  match apiOpt with
  | none => Except.ok none
  | some s => (newMultiaddr s).map some

/-- Embeds the `daemonRequested` computation of `makeExecutor`: an API
address was parsed and the command is not the daemon-start command. -/
def daemonRequestedOf (apiAddr : Option Multiaddr) (req : Request) : Bool :=
  apiAddr.isSome && !req.isDaemonCmd

/-- Embeds `resolveAddr` from `lib/command.go`: resolver errors are
returned unchanged, an empty candidate list is the error
"non-resolvable API endpoint", and otherwise the first candidate in
resolver order is returned. -/
def resolveAddr (resolve : Multiaddr → Except String (List Multiaddr))
    (addr : Multiaddr) : Except String Multiaddr :=
  match resolve addr with
  | Except.error e => Except.error e
  | Except.ok addrs =>
    match addrs with
    | [] => Except.error "non-resolvable API endpoint"
    | a :: _ => Except.ok a

/-- Embeds the tail of `makeExecutor` (option accumulation and the
switch on the network kind returned by `manet.DialArgs`): the base
option list carries the API path, the fallback option is appended when
no daemon was requested and the repo is initialized, tcp-family hosts
are dialed directly, a unix host is replaced by the sentinel "unix"
after its socket path is captured by the HTTP client option, and any
other network kind is an unsupported API address error naming the
resolved address. -/
def buildClient (dReq initOk : Bool) (network host resolved : String) :
    Except String Executor :=
  let opts := [ClientOpt.withAPIPath]
  let opts :=
    if !dReq && initOk then opts ++ [ClientOpt.withFallback]
    else opts
  if network = "tcp" ∨ network = "tcp4" ∨ network = "tcp6" then
    Except.ok (Executor.remote host opts)
  else if network = "unix" then
    Except.ok (Executor.remote "unix" (opts ++ [ClientOpt.withHTTPClientUnix host]))
  else
    Except.error ("unsupported API address: " ++ resolved)

/-- Embeds `makeExecutor` from `lib/command.go`, step for step: the
disabled check, the local fast path, API option parsing, the
client-only check, discovery via `fsrepo.APIAddr`, the no-address
check, resolution, `manet.DialArgs`, and the client construction of
`buildClient`. -/
def makeExecutor (m : String → Option cmdDetails) (c : Collab) (req : Request) :
    Except String Executor :=
  let details := commandDetails m req.path
  if details.cannotRunOnClient && details.cannotRunOnDaemon then
    Except.error ("command disabled: " ++ goFmtStrSlice req.path)
  else if !details.cannotRunOnClient && details.doesNotUseRepo then
    Except.ok Executor.localExec
  else
    match apiAddrOption c.newMultiaddr req.apiOpt with
    | Except.error e => Except.error e
    | Except.ok apiAddrO =>
      let dReq := daemonRequestedOf apiAddrO req
      if details.cannotRunOnDaemon || req.ext then
        if dReq then
          Except.error "api flag specified but command cannot be run on the daemon"
        else
          Except.ok Executor.localExec
      else
        let discovered : Except String (Option Multiaddr) :=
          match apiAddrO with
          | some a => Except.ok (some a)
          | none =>
            match c.apiAddrFile with
            | APIAddrResult.found a => Except.ok (some a)
            | APIAddrResult.errApiNotRunning => Except.ok none
            | APIAddrResult.err e => Except.error e
        match discovered with
        | Except.error e => Except.error e
        | Except.ok none =>
          if details.cannotRunOnClient then
            Except.error ("command must be run on the daemon: " ++ goFmtStrSlice req.path)
          else
            Except.ok Executor.localExec
        | Except.ok (some addr) =>
          match resolveAddr c.resolve addr with
          | Except.error e => Except.error e
          | Except.ok resolved =>
            match c.dialArgs resolved with
            | Except.error e => Except.error e
            | Except.ok (network, host) =>
              buildClient dReq c.isInitialized network host resolved

/-- A capability map whose single entry `test` carries the contradictory
flag pair, used to exercise the disabled check. -/
def disabledMap : String → Option cmdDetails := fun s =>
  if s = "test" then some { cannotRunOnClient := true, cannotRunOnDaemon := true }
  else none

/-- A well-behaved collaborator set: parsing echoes the string, no
daemon is recorded as running, resolution returns the address itself,
dial args classify every address as plain tcp. -/
def collabOk : Collab where
  newMultiaddr := fun s => Except.ok s
  apiAddrFile := APIAddrResult.errApiNotRunning
  resolve := fun a => Except.ok [a]
  dialArgs := fun a => Except.ok ("tcp", a)
  isInitialized := true

/-- A hostile collaborator set: every collaborator fails.  Used to show
that certain dispatch paths never consult the collaborators. -/
def collabBad : Collab where
  newMultiaddr := fun _ => Except.error "invalid multiaddr"
  apiAddrFile := APIAddrResult.err "io failure"
  resolve := fun _ => Except.error "dns failure"
  dialArgs := fun _ => Except.error "dial failure"
  isInitialized := false

/-- A capability map whose single entry `diag` is a client-only command
(`cannotRunOnDaemon` set). -/
def clientOnlyMap : String → Option cmdDetails := fun s =>
  if s = "diag" then some { cannotRunOnDaemon := true }
  else none

/-- A capability map whose single entry `refs` is an ordinary command
with all-false flags (repo-dependent, client-and-daemon-capable). -/
def plainMap : String → Option cmdDetails := fun s =>
  if s = "refs" then some {} else none

/-- Collaborators whose discovery read fails with an I/O error other
than the not-running signal. -/
def collabDiscErr : Collab where
  newMultiaddr := fun s => Except.ok s
  apiAddrFile := APIAddrResult.err "open api file: permission denied"
  resolve := fun a => Except.ok [a]
  dialArgs := fun a => Except.ok ("tcp", a)
  isInitialized := true

/-- A resolver fixture returning two candidates for every address. -/
def twoCandidates : Multiaddr → Except String (List Multiaddr) :=
  fun _ => Except.ok ["/ip4/10.0.0.1/tcp/5001", "/ip4/10.0.0.2/tcp/5001"]

/-- Collaborators that discover a recorded daemon address and classify
it as a tcp transport, with an initialized repository. -/
def collabFound : Collab where
  newMultiaddr := fun s => Except.ok s
  apiAddrFile := APIAddrResult.found "/ip4/127.0.0.1/tcp/5001"
  resolve := fun a => Except.ok [a]
  dialArgs := fun _ => Except.ok ("tcp", "127.0.0.1:5001")
  isInitialized := true

/-- Collaborators that classify the explicit address as a unix-socket
transport whose dial-args host is the socket path. -/
def collabUnix : Collab where
  newMultiaddr := fun s => Except.ok s
  apiAddrFile := APIAddrResult.errApiNotRunning
  resolve := fun a => Except.ok [a]
  dialArgs := fun _ => Except.ok ("unix", "/var/run/ipfs.sock")
  isInitialized := false

/-- Embeds the argument-rewriting prologue of `command` in
`lib/command.go`: `--version` in first user position becomes the
`version` command; `help` with a following word drops the `help`
segment and appends `--help` unless that word already is `--help`;
bare `help` becomes `--help`; finally the program name is forced to
`ipfs`. -/
def rewriteArgs (args : List String) : List String :=
  let args :=
    if args.length > 1 then
      let args := if args.getD 1 "" = "--version" then args.set 1 "version" else args
      if args.getD 1 "" = "help" then
        if args.length > 2 then
          let args2 := args.take 1 ++ args.drop 2
          if args2.getD 1 "" ≠ "--help" then args2 ++ ["--help"] else args2
        else args.set 1 "--help"
      else args
    else args
  args.set 0 "ipfs"

/-- The step function of the `commandDetails` loop keeps the accumulator
on every index whose prefix is unregistered. -/
theorem commandDetails_foldl_none (m : String → Option cmdDetails)
    (path : List String) (l : List Nat) (acc : cmdDetails)
    (h : ∀ i ∈ l, m (String.intercalate "/" (path.take (i + 1))) = none) :
    l.foldl
      (fun details i =>
        match m (String.intercalate "/" (path.take (i + 1))) with
        | some d => d
        | none => details)
      acc = acc := by
  induction l generalizing acc with
  | nil => rfl
  | cons x xs ih =>
    have hx := h x (List.mem_cons_self x xs)
    simp only [List.foldl_cons, hx]
    exact ih acc (fun i hi => h i (List.mem_cons_of_mem x hi))

/-- If index `i` carries the deepest registered prefix below `n`, the
`commandDetails` loop over `List.range n` returns its flags. -/
theorem commandDetails_foldl_deepest (m : String → Option cmdDetails)
    (path : List String) (n : Nat) (i : Nat) (d : cmdDetails) (acc : cmdDetails)
    (hin : i < n)
    (hfound : m (String.intercalate "/" (path.take (i + 1))) = some d)
    (hdeep : ∀ j, i < j → j < n → m (String.intercalate "/" (path.take (j + 1))) = none) :
    (List.range n).foldl
      (fun details k =>
        match m (String.intercalate "/" (path.take (k + 1))) with
        | some d => d
        | none => details)
      acc = d := by
  induction n generalizing acc with
  | zero => omega
  | succ k ih =>
    rw [List.range_succ, List.foldl_append]
    rcases Nat.lt_or_ge i k with hik | hik
    · have hk := hdeep k hik (Nat.lt_succ_self k)
      simp only [List.foldl_cons, List.foldl_nil, hk]
      exact ih acc hik (fun j h1 h2 => hdeep j h1 (Nat.lt_succ_of_lt h2))
    · have : i = k := by omega
      subst this
      simp only [List.foldl_cons, List.foldl_nil, hfound]

/-- C1. Capability lookup is a pure function of the command path: the
empty path yields exactly `{doesNotUseRepo: true}`; a non-empty path
with no registered prefix yields the all-false flags; and a non-empty
path returns the flags of the deepest prefix (segments joined by "/")
holding a registered entry. -/
theorem commandDetails_claim (m : String → Option cmdDetails) (path : List String) :
    commandDetails m [] = { cannotRunOnClient := false, cannotRunOnDaemon := false,
                            doesNotUseRepo := true } ∧
    (path ≠ [] →
      (∀ i ∈ List.range path.length,
          m (String.intercalate "/" (path.take (i + 1))) = none) →
      commandDetails m path = { cannotRunOnClient := false, cannotRunOnDaemon := false,
                                doesNotUseRepo := false }) ∧
    (∀ i d, i ∈ List.range path.length →
      m (String.intercalate "/" (path.take (i + 1))) = some d →
      (∀ j ∈ List.range path.length, i < j →
          m (String.intercalate "/" (path.take (j + 1))) = none) →
      commandDetails m path = d) := by
  refine ⟨rfl, ?_, ?_⟩
  · intro hne hall
    have hlen : path.length ≠ 0 := by
      intro h
      exact hne (List.length_eq_zero.mp h)
    unfold commandDetails
    rw [if_neg hlen]
    exact commandDetails_foldl_none m path (List.range path.length) zeroDetails hall
  · intro i d hi hfound hdeep
    rw [List.mem_range] at hi
    have hlen : path.length ≠ 0 := by omega
    unfold commandDetails
    rw [if_neg hlen]
    exact commandDetails_foldl_deepest m path path.length i d zeroDetails hi hfound
      (fun j h1 h2 => hdeep j (List.mem_range.mpr h2) h1)

/-- Witness for C1 at a concrete map and path: both `swarm` and
`swarm/peers` are registered and the deeper entry wins. -/
theorem commandDetails_claim_witness :
    commandDetails sampleMap ["swarm", "peers"] = { doesNotUseRepo := true } :=
  (commandDetails_claim sampleMap ["swarm", "peers"]).2.2 1 { doesNotUseRepo := true }
    (by decide) (by decide) (by decide)

/-- C2. A command whose flags set both `cannotRunOnClient` and
`cannotRunOnDaemon` is refused as disabled by `makeExecutor`, whatever
the collaborators and whatever API address the request carries. -/
theorem makeExecutor_disabled_claim (m : String → Option cmdDetails)
    (c : Collab) (req : Request)
    (h1 : (commandDetails m req.path).cannotRunOnClient = true)
    (h2 : (commandDetails m req.path).cannotRunOnDaemon = true) :
    makeExecutor m c req = Except.error ("command disabled: " ++ goFmtStrSlice req.path) := by
  unfold makeExecutor
  simp [h1, h2]

/-- Witness for C2: the disabled command is refused even though an API
address is supplied and the collaborators would succeed. -/
theorem makeExecutor_disabled_claim_witness :
    makeExecutor disabledMap collabOk
      { path := ["test"], apiOpt := some "/ip4/127.0.0.1/tcp/5001",
        isDaemonCmd := false, ext := false } =
      Except.error "command disabled: [test]" :=
  makeExecutor_disabled_claim disabledMap collabOk
    { path := ["test"], apiOpt := some "/ip4/127.0.0.1/tcp/5001",
      isDaemonCmd := false, ext := false } rfl rfl

/-- C3. A command whose flags clear `cannotRunOnClient` and set
`doesNotUseRepo` is dispatched to the local executor for every choice
of collaborators, so neither API option parsing nor discovery nor
resolution is ever consulted. -/
theorem makeExecutor_fastpath_claim (m : String → Option cmdDetails) (req : Request)
    (h1 : (commandDetails m req.path).cannotRunOnClient = false)
    (h2 : (commandDetails m req.path).doesNotUseRepo = true) :
    ∀ c : Collab, makeExecutor m c req = Except.ok Executor.localExec := by
  intro c
  unfold makeExecutor
  simp [h1, h2]

/-- Witness for C3: the fast-path command reaches the local executor
even when every collaborator (parsing included) would fail on the
malformed API value carried by the request. -/
theorem makeExecutor_fastpath_claim_witness :
    makeExecutor sampleMap collabBad
      { path := ["swarm", "peers"], apiOpt := some "garbage",
        isDaemonCmd := false, ext := false } = Except.ok Executor.localExec :=
  makeExecutor_fastpath_claim sampleMap
    { path := ["swarm", "peers"], apiOpt := some "garbage",
      isDaemonCmd := false, ext := false } rfl rfl collabBad

/-- C4. For a command that must run on the client (`cannotRunOnDaemon`
or external), once the disabled check and the fast path have not fired:
a parsed explicit API address on a non-daemon command is refused with
the api-flag message, while an absent address, or the daemon-start
command itself, gets the local executor — the daemon-start command is
exempt from the `daemonRequested` condition. -/
theorem makeExecutor_clientonly_claim (m : String → Option cmdDetails)
    (c : Collab) (req : Request)
    (hdis : ((commandDetails m req.path).cannotRunOnClient &&
             (commandDetails m req.path).cannotRunOnDaemon) = false)
    (hfast : ((!(commandDetails m req.path).cannotRunOnClient) &&
              (commandDetails m req.path).doesNotUseRepo) = false)
    (hbr : ((commandDetails m req.path).cannotRunOnDaemon || req.ext) = true) :
    (∀ a : Multiaddr, apiAddrOption c.newMultiaddr req.apiOpt = Except.ok (some a) →
      req.isDaemonCmd = false →
      makeExecutor m c req =
        Except.error "api flag specified but command cannot be run on the daemon") ∧
    (apiAddrOption c.newMultiaddr req.apiOpt = Except.ok none →
      makeExecutor m c req = Except.ok Executor.localExec) ∧
    (∀ a : Multiaddr, apiAddrOption c.newMultiaddr req.apiOpt = Except.ok (some a) →
      req.isDaemonCmd = true →
      makeExecutor m c req = Except.ok Executor.localExec) := by
  refine ⟨?_, ?_, ?_⟩
  · intro a ha hd
    unfold makeExecutor
    simp [hdis, hfast, hbr, ha, daemonRequestedOf, hd]
  · intro ha
    unfold makeExecutor
    simp [hdis, hfast, hbr, ha, daemonRequestedOf]
  · intro a ha hd
    unfold makeExecutor
    simp [hdis, hfast, hbr, ha, daemonRequestedOf, hd]

/-- Witness for C4: the client-only command with a parsed API address on
a non-daemon request is refused with the api-flag message. -/
theorem makeExecutor_clientonly_claim_witness :
    makeExecutor clientOnlyMap collabOk
      { path := ["diag"], apiOpt := some "/ip4/127.0.0.1/tcp/5001",
        isDaemonCmd := false, ext := false } =
      Except.error "api flag specified but command cannot be run on the daemon" :=
  (makeExecutor_clientonly_claim clientOnlyMap collabOk
    { path := ["diag"], apiOpt := some "/ip4/127.0.0.1/tcp/5001",
      isDaemonCmd := false, ext := false } rfl rfl rfl).1
    "/ip4/127.0.0.1/tcp/5001" rfl rfl

/-- C5. With no explicit API address, `makeExecutor` consults discovery:
the `repo.ErrApiNotRunning` signal is absorbed as "no address found"
and dispatch continues, while any other discovery error is returned
unchanged and aborts dispatch; when no address remains, a
`cannotRunOnClient` command is refused with the must-run-on-daemon
message and any other command gets the local executor. -/
theorem makeExecutor_discovery_claim (m : String → Option cmdDetails)
    (c : Collab) (req : Request)
    (hdis : ((commandDetails m req.path).cannotRunOnClient &&
             (commandDetails m req.path).cannotRunOnDaemon) = false)
    (hfast : ((!(commandDetails m req.path).cannotRunOnClient) &&
              (commandDetails m req.path).doesNotUseRepo) = false)
    (hbr : ((commandDetails m req.path).cannotRunOnDaemon || req.ext) = false)
    (hnone : apiAddrOption c.newMultiaddr req.apiOpt = Except.ok none) :
    (∀ e, c.apiAddrFile = APIAddrResult.err e →
      makeExecutor m c req = Except.error e) ∧
    (c.apiAddrFile = APIAddrResult.errApiNotRunning →
      ((commandDetails m req.path).cannotRunOnClient = true →
        makeExecutor m c req =
          Except.error ("command must be run on the daemon: " ++ goFmtStrSlice req.path)) ∧
      ((commandDetails m req.path).cannotRunOnClient = false →
        makeExecutor m c req = Except.ok Executor.localExec)) := by
  have hnd : (commandDetails m req.path).cannotRunOnDaemon = false :=
    (Bool.or_eq_false_iff.mp hbr).1
  have hext : req.ext = false := (Bool.or_eq_false_iff.mp hbr).2
  constructor
  · intro e he
    unfold makeExecutor
    simp [hdis, hfast, hbr, hnone, daemonRequestedOf, he, hnd, hext]
  · intro he
    constructor
    · intro hcl
      unfold makeExecutor
      simp [hdis, hfast, hbr, hnone, daemonRequestedOf, he, hcl, hnd, hext]
    · intro hcl
      unfold makeExecutor
      simp [hdis, hfast, hbr, hnone, daemonRequestedOf, he, hcl, hnd, hext]

/-- Witness for C5: without an explicit address, a discovery I/O error
is propagated unchanged out of `makeExecutor`. -/
theorem makeExecutor_discovery_claim_witness :
    makeExecutor plainMap collabDiscErr
      { path := ["refs"], apiOpt := none, isDaemonCmd := false, ext := false } =
      Except.error "open api file: permission denied" :=
  (makeExecutor_discovery_claim plainMap collabDiscErr
    { path := ["refs"], apiOpt := none, isDaemonCmd := false, ext := false }
    rfl rfl rfl rfl).1 "open api file: permission denied" rfl

/-- C7. `resolveAddr` propagates resolver errors unchanged, turns an
empty candidate list into exactly the error "non-resolvable API
endpoint", and otherwise returns the first candidate in the order the
resolver produced, with no ranking or retry. -/
theorem resolveAddr_claim (resolve : Multiaddr → Except String (List Multiaddr))
    (addr : Multiaddr) :
    (∀ e, resolve addr = Except.error e →
      resolveAddr resolve addr = Except.error e) ∧
    (resolve addr = Except.ok [] →
      resolveAddr resolve addr = Except.error "non-resolvable API endpoint") ∧
    (∀ a rest, resolve addr = Except.ok (a :: rest) →
      resolveAddr resolve addr = Except.ok a) := by
  refine ⟨?_, ?_, ?_⟩
  · intro e he
    unfold resolveAddr
    rw [he]
  · intro he
    unfold resolveAddr
    rw [he]
  · intro a rest he
    unfold resolveAddr
    rw [he]

/-- Witness for C7: with two candidates the first one in resolver order
is returned. -/
theorem resolveAddr_claim_witness :
    resolveAddr twoCandidates "/dns4/node.example/tcp/5001" =
      Except.ok "/ip4/10.0.0.1/tcp/5001" :=
  (resolveAddr_claim twoCandidates "/dns4/node.example/tcp/5001").2.2
    "/ip4/10.0.0.1/tcp/5001" ["/ip4/10.0.0.2/tcp/5001"] rfl

/-- When the routing checks pass and an address is available, explicit
or discovered, `makeExecutor` hands the resolved dial arguments to
`buildClient` together with the `daemonRequested` flag and the repo
initialization state. -/
theorem makeExecutor_reaches_build (m : String → Option cmdDetails)
    (c : Collab) (req : Request) (aOpt : Option Multiaddr)
    (a r net host : Multiaddr)
    (hdis : ((commandDetails m req.path).cannotRunOnClient &&
             (commandDetails m req.path).cannotRunOnDaemon) = false)
    (hfast : ((!(commandDetails m req.path).cannotRunOnClient) &&
              (commandDetails m req.path).doesNotUseRepo) = false)
    (hbr : ((commandDetails m req.path).cannotRunOnDaemon || req.ext) = false)
    (haddr : apiAddrOption c.newMultiaddr req.apiOpt = Except.ok aOpt)
    (hsome : aOpt = some a ∨ (aOpt = none ∧ c.apiAddrFile = APIAddrResult.found a))
    (hres : resolveAddr c.resolve a = Except.ok r)
    (hdial : c.dialArgs r = Except.ok (net, host)) :
    makeExecutor m c req =
      buildClient (daemonRequestedOf aOpt req) c.isInitialized net host r := by
  have hnd : (commandDetails m req.path).cannotRunOnDaemon = false :=
    (Bool.or_eq_false_iff.mp hbr).1
  have hext : req.ext = false := (Bool.or_eq_false_iff.mp hbr).2
  unfold makeExecutor
  rcases hsome with hA | ⟨hA, hF⟩
  · subst hA
    simp [hdis, hfast, hnd, hext, haddr, hres, hdial]
  · subst hA
    simp [hdis, hfast, hnd, hext, haddr, hF, hres, hdial]

/-- C6. When an address exists (explicit or discovered), resolves, and
yields a supported transport, `makeExecutor` returns a remote executor
whose option list contains the local-fallback option exactly when
`daemonRequested` is false and the repository is initialized on disk. -/
theorem makeExecutor_fallback_claim (m : String → Option cmdDetails)
    (c : Collab) (req : Request) (aOpt : Option Multiaddr)
    (a r net host : Multiaddr)
    (hdis : ((commandDetails m req.path).cannotRunOnClient &&
             (commandDetails m req.path).cannotRunOnDaemon) = false)
    (hfast : ((!(commandDetails m req.path).cannotRunOnClient) &&
              (commandDetails m req.path).doesNotUseRepo) = false)
    (hbr : ((commandDetails m req.path).cannotRunOnDaemon || req.ext) = false)
    (haddr : apiAddrOption c.newMultiaddr req.apiOpt = Except.ok aOpt)
    (hsome : aOpt = some a ∨ (aOpt = none ∧ c.apiAddrFile = APIAddrResult.found a))
    (hres : resolveAddr c.resolve a = Except.ok r)
    (hdial : c.dialArgs r = Except.ok (net, host))
    (hnet : net = "tcp" ∨ net = "tcp4" ∨ net = "tcp6" ∨ net = "unix") :
    ∃ h o, makeExecutor m c req = Except.ok (Executor.remote h o) ∧
      (ClientOpt.withFallback ∈ o ↔
        (daemonRequestedOf aOpt req = false ∧ c.isInitialized = true)) := by
  rw [makeExecutor_reaches_build m c req aOpt a r net host hdis hfast hbr haddr hsome
    hres hdial]
  unfold buildClient
  cases hdR : daemonRequestedOf aOpt req <;> cases hini : c.isInitialized <;>
    rcases hnet with hn | hn | hn | hn <;> subst hn <;>
    refine ⟨_, _, rfl, by simp⟩

/-- Witness for C6: a discovered address with no explicit API option and
an initialized repository yields a remote executor carrying the
local-fallback option. -/
theorem makeExecutor_fallback_claim_witness :
    ∃ h o, makeExecutor plainMap collabFound
        { path := ["refs"], apiOpt := none, isDaemonCmd := false, ext := false } =
        Except.ok (Executor.remote h o) ∧
      (ClientOpt.withFallback ∈ o ↔
        (daemonRequestedOf none
            { path := ["refs"], apiOpt := none, isDaemonCmd := false, ext := false } = false ∧
          collabFound.isInitialized = true)) :=
  makeExecutor_fallback_claim plainMap collabFound
    { path := ["refs"], apiOpt := none, isDaemonCmd := false, ext := false }
    none "/ip4/127.0.0.1/tcp/5001" "/ip4/127.0.0.1/tcp/5001" "tcp" "127.0.0.1:5001"
    rfl rfl rfl rfl (Or.inr ⟨rfl, rfl⟩) rfl rfl (Or.inl rfl)

/-- C8. Transport building accepts exactly the tcp-family kinds and
unix: tcp-family keeps the dial-args host, any other kind is an
unsupported API address error naming the resolved address, a unix
address replaces the nominal host with the sentinel "unix" while its
socket path is captured in the HTTP client option, and the unix dial
function ignores the host and port supplied by the HTTP layer. -/
theorem makeExecutor_transport_claim (m : String → Option cmdDetails)
    (c : Collab) (req : Request) (a r net host : Multiaddr)
    (hdis : ((commandDetails m req.path).cannotRunOnClient &&
             (commandDetails m req.path).cannotRunOnDaemon) = false)
    (hfast : ((!(commandDetails m req.path).cannotRunOnClient) &&
              (commandDetails m req.path).doesNotUseRepo) = false)
    (hbr : ((commandDetails m req.path).cannotRunOnDaemon || req.ext) = false)
    (haddr : apiAddrOption c.newMultiaddr req.apiOpt = Except.ok (some a))
    (hres : resolveAddr c.resolve a = Except.ok r)
    (hdial : c.dialArgs r = Except.ok (net, host)) :
    ((net = "tcp" ∨ net = "tcp4" ∨ net = "tcp6") →
      makeExecutor m c req = Except.ok (Executor.remote host
        (if (!(daemonRequestedOf (some a) req) && c.isInitialized) = true
         then [ClientOpt.withAPIPath, ClientOpt.withFallback]
         else [ClientOpt.withAPIPath]))) ∧
    (net = "unix" →
      makeExecutor m c req = Except.ok (Executor.remote "unix"
        ((if (!(daemonRequestedOf (some a) req) && c.isInitialized) = true
          then [ClientOpt.withAPIPath, ClientOpt.withFallback]
          else [ClientOpt.withAPIPath]) ++ [ClientOpt.withHTTPClientUnix host]))) ∧
    (net ≠ "tcp" → net ≠ "tcp4" → net ≠ "tcp6" → net ≠ "unix" →
      makeExecutor m c req = Except.error ("unsupported API address: " ++ r)) ∧
    (∀ sp hs ps, unixDialContext sp hs ps = Conn.dialed "unix" sp) := by
  have hred := makeExecutor_reaches_build m c req (some a) a r net host hdis hfast hbr
    haddr (Or.inl rfl) hres hdial
  refine ⟨?_, ?_, ?_, fun sp hs ps => rfl⟩
  · intro hn
    rw [hred]
    unfold buildClient
    cases hfb : (!(daemonRequestedOf (some a) req) && c.isInitialized) <;>
      rcases hn with hn | hn | hn <;> subst hn <;> simp [hfb]
  · intro hn
    subst hn
    rw [hred]
    unfold buildClient
    cases hfb : (!(daemonRequestedOf (some a) req) && c.isInitialized) <;> simp [hfb]
  · intro h1 h2 h3 h4
    rw [hred]
    unfold buildClient
    simp [h1, h2, h3, h4]

/-- Witness for C8: a unix-socket address produces a client whose host
is the sentinel "unix" and whose HTTP client option captured the socket
path delivered by dial args. -/
theorem makeExecutor_transport_claim_witness :
    makeExecutor plainMap collabUnix
      { path := ["refs"], apiOpt := some "/unix/var/run/ipfs.sock",
        isDaemonCmd := false, ext := false } =
      Except.ok (Executor.remote "unix"
        [ClientOpt.withAPIPath, ClientOpt.withHTTPClientUnix "/var/run/ipfs.sock"]) :=
  (makeExecutor_transport_claim plainMap collabUnix
    { path := ["refs"], apiOpt := some "/unix/var/run/ipfs.sock",
      isDaemonCmd := false, ext := false }
    "/unix/var/run/ipfs.sock" "/unix/var/run/ipfs.sock" "unix" "/var/run/ipfs.sock"
    rfl rfl rfl rfl rfl rfl).2.1 rfl

/-- C10. A present but unparseable API option value is returned as the
parse error by `makeExecutor` for every command that passes the
disabled check and does not take the fast path, while a fast-path
command (`cannotRunOnClient` false, `doesNotUseRepo` true) never
examines the malformed value and gets the local executor. -/
theorem makeExecutor_apiparse_claim (m : String → Option cmdDetails)
    (c : Collab) (req : Request) :
    (∀ s e,
      ((commandDetails m req.path).cannotRunOnClient &&
       (commandDetails m req.path).cannotRunOnDaemon) = false →
      ((!(commandDetails m req.path).cannotRunOnClient) &&
       (commandDetails m req.path).doesNotUseRepo) = false →
      req.apiOpt = some s → c.newMultiaddr s = Except.error e →
      makeExecutor m c req = Except.error e) ∧
    (((!(commandDetails m req.path).cannotRunOnClient) &&
      (commandDetails m req.path).doesNotUseRepo) = true →
      makeExecutor m c req = Except.ok Executor.localExec) := by
  constructor
  · intro s e hdis hfast hs he
    unfold makeExecutor
    simp [hdis, hfast, apiAddrOption, hs, he, Except.map]
  · intro hfastT
    have h1 : (commandDetails m req.path).cannotRunOnClient = false := by
      rcases Bool.and_eq_true_iff.mp hfastT with ⟨hx, _⟩
      simpa using hx
    have h2 : (commandDetails m req.path).doesNotUseRepo = true :=
      (Bool.and_eq_true_iff.mp hfastT).2
    unfold makeExecutor
    simp [h1, h2]

/-- Witness for C10: the malformed API value that the fast path ignores
is a hard parse error for a client-only command. -/
theorem makeExecutor_apiparse_claim_witness :
    makeExecutor clientOnlyMap collabBad
      { path := ["diag"], apiOpt := some "garbage",
        isDaemonCmd := false, ext := false } =
      Except.error "invalid multiaddr" :=
  (makeExecutor_apiparse_claim clientOnlyMap collabBad
    { path := ["diag"], apiOpt := some "garbage",
      isDaemonCmd := false, ext := false }).1
    "garbage" "invalid multiaddr" rfl rfl rfl rfl

/-- Counterexample for C9 as stated: `ipfs help --help` is not left
untouched by the rewriting; the `help` segment is removed. -/
theorem rewriteArgs_claim_counterexample :
    rewriteArgs ["ipfs", "help", "--help"] ≠ ["ipfs", "help", "--help"] := by
  decide

/-- C9 (amended). Argument rewriting before parsing: `--version` as the
first user argument becomes the `version` command; `help cmd` becomes
`cmd --help`; bare `help` becomes `--help`; `help --help` drops the
`help` segment but appends no second `--help`, yielding `--help`; and
the first argument is always normalized to `ipfs`. -/
theorem rewriteArgs_claim :
    (∀ p rest, rewriteArgs (p :: "--version" :: rest) = "ipfs" :: "version" :: rest) ∧
    (∀ p cmd rest, cmd ≠ "--help" →
      rewriteArgs (p :: "help" :: cmd :: rest) = "ipfs" :: cmd :: (rest ++ ["--help"])) ∧
    (∀ p, rewriteArgs [p, "help"] = ["ipfs", "--help"]) ∧
    (∀ p rest, rewriteArgs (p :: "help" :: "--help" :: rest) = "ipfs" :: "--help" :: rest) ∧
    (∀ args, args ≠ [] → (rewriteArgs args).head? = some "ipfs") := by
  refine ⟨?_, ?_, ?_, ?_, ?_⟩
  · intro p rest
    simp [rewriteArgs, List.getD]
  · intro p cmd rest hcmd
    simp [rewriteArgs, List.getD, hcmd]
  · intro p
    simp [rewriteArgs, List.getD]
  · intro p rest
    simp [rewriteArgs, List.getD]
  · intro args hne
    rcases args with _ | ⟨a, args⟩
    · exact absurd rfl hne
    · rcases args with _ | ⟨b, t⟩
      · simp [rewriteArgs]
      · simp only [rewriteArgs, List.getD]
        split_ifs <;> simp_all

/-- Witness for C9 (amended): `ipfs help files ls` becomes
`ipfs files ls --help`. -/
theorem rewriteArgs_claim_witness :
    rewriteArgs ["x", "help", "files", "ls"] = "ipfs" :: "files" :: (["ls"] ++ ["--help"]) :=
  rewriteArgs_claim.2.1 "x" "files" ["ls"] (by decide)


end IpfsLib

